import Mathlib

/-!
Shallow embedding of `src/cafe_inventory.py` (SDEV_220_Final_Project_Group1):
an in-memory cafe inventory system with categories, suppliers, items and
purchase orders.

Modelling conventions:
* Python `dict`s (which preserve insertion order, update values in place,
  and append new keys at the end) are embedded as association lists
  `List (Nat × V)` with `findA` / `setA` / `modifyA` below.
* Python `int` quantities become `Int` (so non-negativity of stock is a
  provable invariant, not a typing artefact); identifiers become `Nat`.
* Python `float` prices become `ℚ`; the program never computes with a
  price, it only stores and renders it, and the `%.2f` rendering is
  modelled by `formatCurrency` (rounding to the nearest cent).
* `itertools.count(n)` counters become a stored `Nat` whose `next` is
  "return current, store current+1".
* `datetime.now().strftime(...)` is nondeterministic input; order-creating
  operations take the date string as an explicit `today` argument.
* `raise ValueError(msg)` becomes returning `Except.error e` together with
  the state at the moment of the raise; every operation has the shape
  `InventorySystem → Except Err α × InventorySystem` (mutating ones) or is
  a pure function of the state (read-only ones), translated statement by
  statement from the source.
* The dead `Stock` dataclass (unused by the program) is not modelled.
-/

namespace CafeInventory

/-- Python dict lookup `d.get(k)` / `k in d` on an insertion-ordered dict. -/
def findA {V : Type} (l : List (Nat × V)) (k : Nat) : Option V :=
  match l with
  | [] => none
  | (k₁, v₁) :: t => if k₁ = k then some v₁ else findA t k

/-- Python `k in d`. -/
def containsA {V : Type} (l : List (Nat × V)) (k : Nat) : Bool :=
  (findA l k).isSome

/-- Python `d[k] = v`: update in place if the key exists, else append. -/
def setA {V : Type} (l : List (Nat × V)) (k : Nat) (v : V) : List (Nat × V) :=
  match l with
  | [] => [(k, v)]
  | (k₁, v₁) :: t => if k₁ = k then (k₁, v) :: t else (k₁, v₁) :: setA t k v

/-- Mutation of the stored object at key `k` (Python objects are mutated
in place, leaving dict order unchanged); absent keys: no change. -/
def modifyA {V : Type} (l : List (Nat × V)) (k : Nat) (f : V → V) : List (Nat × V) :=
  match l with
  | [] => []
  | (k₁, v₁) :: t => if k₁ = k then (k₁, f v₁) :: t else (k₁, v₁) :: modifyA t k f

/-- Python `d.values()` in insertion order. -/
def valuesA {V : Type} (l : List (Nat × V)) : List V :=
  l.map Prod.snd

/-- dataclass `Category`. -/
structure Category where
  categoryID : Nat
  name : String
deriving DecidableEq

/-- dataclass `Supplier`. -/
structure Supplier where
  supplierID : Nat
  name : String
  contactInfo : String
deriving DecidableEq

/-- dataclass `InventoryItem` (stock / levels as `Int`, price as `ℚ`). -/
structure InventoryItem where
  itemID : Nat
  name : String
  price : ℚ
  categoryID : Nat
  supplierID : Nat
  currentStock : Int
  reorderLevel : Int
  reorderQty : Int
deriving DecidableEq

/-- Two-digit zero-padded rendering of `m` (the cents part of `%.2f`). -/
def pad2 (m : Nat) : String :=
  if m < 10 then "0" ++ toString m else toString m

/-- Fixed-point two-decimal rendering of a rational, modelling Python
`f-string` formatting with `.2f` (round to nearest cent). -/
def formatFixed2 (q : ℚ) : String :=
  let cents : Int := ⌊q * 100 + 1 / 2⌋
  (if cents < 0 then "-" else "") ++ toString (cents.natAbs / 100) ++ "." ++ pad2 (cents.natAbs % 100)

/-- Python `f"[dollar]{self.price:.2f}"`. -/
def formatCurrency (q : ℚ) : String :=
  "$" ++ formatFixed2 q

/-- `InventoryItem.to_row`. -/
def InventoryItem.to_row (it : InventoryItem) : List String :=
  [toString it.itemID, it.name, formatCurrency it.price, toString it.categoryID,
   toString it.supplierID, toString it.currentStock, toString it.reorderLevel,
   toString it.reorderQty]

/-- dataclass `PurchaseOrder`; `status` is one of the literal strings
"OPEN", "SUBMITTED", "RECEIVED", "CANCELED"; `items` is the line mapping
itemID ↦ qty. -/
structure PurchaseOrder where
  orderID : Nat
  orderDate : String
  supplierID : Nat
  status : String
  items : List (Nat × Int)
deriving DecidableEq

/-- `PurchaseOrder.add_item`:
`self.items[item_id] = self.items.get(item_id, 0) + max(0, qty)`. -/
def PurchaseOrder.add_item (po : PurchaseOrder) (item_id : Nat) (qty : Int) : PurchaseOrder :=
  { po with items := setA po.items item_id ((findA po.items item_id).getD 0 + max 0 qty) }

/-- The error messages the program raises via `ValueError`. -/
inductive Err where
  | categoryDoesNotExist
  | supplierDoesNotExist
  | itemNotFound
  | supplierNotFound
  | orderNotFound
deriving DecidableEq

/-- The human-readable message of each raise site. -/
def Err.message : Err → String
  | .categoryDoesNotExist => "Category does not exist"
  | .supplierDoesNotExist => "Supplier does not exist"
  | .itemNotFound => "Item not found"
  | .supplierNotFound => "Supplier not found"
  | .orderNotFound => "Order not found"

/-- Spec taxonomy: an unresolved category/supplier reference. -/
def Err.isReferenceError : Err → Bool
  | .categoryDoesNotExist => true
  | .supplierDoesNotExist => true
  | .supplierNotFound => true
  | _ => false

/-- Spec taxonomy: an unknown item/order identifier. -/
def Err.isNotFoundError : Err → Bool
  | .itemNotFound => true
  | .orderNotFound => true
  | _ => false

/-- class `InventorySystem`: four id counters and four insertion-ordered
collections. -/
structure InventorySystem where
  item_id : Nat
  cat_id : Nat
  sup_id : Nat
  po_id : Nat
  categories : List (Nat × Category)
  suppliers : List (Nat × Supplier)
  items : List (Nat × InventoryItem)
  orders : List (Nat × PurchaseOrder)
deriving DecidableEq

/-- `InventorySystem.__init__`: counters seeded 1001 / 1 / 1 / 5001, empty
collections. -/
def initSystem : InventorySystem :=
  ⟨1001, 1, 1, 5001, [], [], [], []⟩

namespace InventorySystem

/-- `add_category`. -/
def add_category (s : InventorySystem) (name : String) : Nat × InventorySystem :=
  let cid := s.cat_id
  (cid, { s with cat_id := s.cat_id + 1,
                 categories := setA s.categories cid ⟨cid, name⟩ })

/-- `add_supplier`. -/
def add_supplier (s : InventorySystem) (name contact : String) : Nat × InventorySystem :=
  let sid := s.sup_id
  (sid, { s with sup_id := s.sup_id + 1,
                 suppliers := setA s.suppliers sid ⟨sid, name, contact⟩ })

/-- `add_item`: reference checks first, then allocate the id and insert
with clamped stock fields. -/
def add_item (s : InventorySystem) (name : String) (price : ℚ)
    (category_id supplier_id : Nat) (current_stock reorder_level reorder_qty : Int) :
    Except Err Nat × InventorySystem :=
  if containsA s.categories category_id = false then
    (.error .categoryDoesNotExist, s)
  else if containsA s.suppliers supplier_id = false then
    (.error .supplierDoesNotExist, s)
  else
    let iid := s.item_id
    (.ok iid, { s with item_id := s.item_id + 1,
                       items := setA s.items iid
                         ⟨iid, name, price, category_id, supplier_id,
                          max 0 current_stock, max 0 reorder_level, max 1 reorder_qty⟩ })

/-- Model of Python `str.lower` (per character; ASCII case folding). -/
def lowerStr (x : String) : String :=
  String.mk (x.data.map Char.toLower)

/-- Model of Python `str.strip`: drop whitespace at both ends. -/
def stripStr (x : String) : String :=
  String.mk (((x.data.dropWhile Char.isWhitespace).reverse.dropWhile Char.isWhitespace).reverse)

/-- Python substring test `needle in hay` on code points. -/
def containsSub (needle hay : List Char) : Bool :=
  hay.tails.any (fun t => needle.isPrefixOf t)

/-- `search_items`: `k = keyword.lower().strip()`, then a list
comprehension over `self.items.values()` filtering on `k in it.name.lower()`. -/
def search_items (s : InventorySystem) (keyword : String) : List InventoryItem :=
  let k := stripStr (lowerStr keyword)
  (valuesA s.items).filter (fun it => containsSub k.toList (lowerStr it.name).toList)

/-- `add_stock`: existence check, then `currentStock += max(0, int(qty))`. -/
def add_stock (s : InventorySystem) (item_id : Nat) (qty : Int) :
    Except Err Unit × InventorySystem :=
  if containsA s.items item_id = false then
    (.error .itemNotFound, s)
  else
    (.ok (), { s with items := (modifyA s.items item_id
                 (fun it => { it with currentStock := it.currentStock + max 0 qty })) })

/-- `consume_stock`: clamp, then decrement only when enough stock. -/
def consume_stock (s : InventorySystem) (item_id : Nat) (qty : Int) :
    Except Err Bool × InventorySystem :=
  match findA s.items item_id with
  | none => (.error .itemNotFound, s)
  | some item =>
    let q := max 0 qty
    if q ≤ item.currentStock then
      (.ok true, { s with items := (modifyA s.items item_id
                     (fun it => { it with currentStock := it.currentStock - q })) })
    else
      (.ok false, s)

/-- `low_stock_items`. -/
def low_stock_items (s : InventorySystem) : List InventoryItem :=
  (valuesA s.items).filter (fun it => decide (it.currentStock ≤ it.reorderLevel))

/-- `create_purchase_order`; `today` stands for
`datetime.now().strftime("%Y-%m-%d")`. -/
def create_purchase_order (s : InventorySystem) (supplier_id : Nat) (today : String) :
    Except Err Nat × InventorySystem :=
  if containsA s.suppliers supplier_id = false then
    (.error .supplierNotFound, s)
  else
    let oid := s.po_id
    (.ok oid, { s with po_id := s.po_id + 1,
                       orders := setA s.orders oid ⟨oid, today, supplier_id, "OPEN", []⟩ })

/-- `create_order_for_item`: item lookup, delegate to
`create_purchase_order` on the item's supplier, then add one line
(default qty: the item's `reorderQty`). -/
def create_order_for_item (s : InventorySystem) (item_id : Nat) (qty : Option Int)
    (today : String) : Except Err Nat × InventorySystem :=
  match findA s.items item_id with
  | none => (.error .itemNotFound, s)
  | some item =>
    match s.create_purchase_order item.supplierID today with
    | (Except.error e, s₁) => (Except.error e, s₁)
    | (Except.ok po_id, s₁) =>
      let q := match qty with
               | some q₀ => q₀
               | none => item.reorderQty
      (.ok po_id, { s₁ with orders := (modifyA s₁.orders po_id
                      (fun po => po.add_item item_id q)) })

/-- `submit_order` (via `_get_order`). -/
def submit_order (s : InventorySystem) (order_id : Nat) :
    Except Err Unit × InventorySystem :=
  match findA s.orders order_id with
  | none => (.error .orderNotFound, s)
  | some _ => (.ok (), { s with orders := (modifyA s.orders order_id
                           (fun po => { po with status := "SUBMITTED" })) })

/-- The stock-application loop of `receive_order`: for each line whose
item is still in the catalog, `currentStock += qty`. -/
def applyLines (items : List (Nat × InventoryItem)) (lines : List (Nat × Int)) :
    List (Nat × InventoryItem) :=
  lines.foldl
    (fun acc ln =>
      if containsA acc ln.1 then
        modifyA acc ln.1 (fun it => { it with currentStock := it.currentStock + ln.2 })
      else acc)
    items

/-- `receive_order`: apply all lines to the catalog, then set status. -/
def receive_order (s : InventorySystem) (order_id : Nat) :
    Except Err Unit × InventorySystem :=
  match findA s.orders order_id with
  | none => (.error .orderNotFound, s)
  | some po =>
    (.ok (), { s with items := applyLines s.items po.items,
                      orders := (modifyA s.orders order_id
                        (fun p => { p with status := "RECEIVED" })) })

/-- `cancel_order`. -/
def cancel_order (s : InventorySystem) (order_id : Nat) :
    Except Err Unit × InventorySystem :=
  match findA s.orders order_id with
  | none => (.error .orderNotFound, s)
  | some _ => (.ok (), { s with orders := (modifyA s.orders order_id
                           (fun po => { po with status := "CANCELED" })) })

end InventorySystem

/-- Stable insertion of `x` into a list sorted on `key` (equal keys: after
the existing ones). -/
def insSorted {V : Type} (key : V → Nat) (x : V) : List V → List V
  | [] => [x]
  | y :: t => if key x < key y then x :: y :: t else y :: insSorted key x t

/-- Stable sort on `key`, modelling Python `sorted(..., key=...)`. -/
def sortByKey {V : Type} (key : V → Nat) (l : List V) : List V :=
  l.foldl (fun acc x => insSorted key x acc) []

namespace InventorySystem

/-- The header row of `inventory_table`. -/
def invHeader : List String :=
  ["ID", "Item", "Price", "CatID", "SupID", "Stock", "Reorder", "ReorderQty"]

/-- `inventory_table`: header plus one `to_row` per item, sorted by
`itemID`; the method reads the state and leaves it unchanged. -/
def inventory_table (s : InventorySystem) : List (List String) × InventorySystem :=
  (invHeader :: (sortByKey (fun it => it.itemID) (valuesA s.items)).map InventoryItem.to_row, s)

end InventorySystem

/-- The header row of `orders_table`. -/
def ordHeader : List String :=
  ["OrderID", "Date", "SupplierID", "Status", "Lines (itemID:qty)"]

/-- Python `", ".join(...)` over the line mapping, `or "-"` when empty. -/
def renderLines (lines : List (Nat × Int)) : String :=
  match lines with
  | [] => "-"
  | _ => String.intercalate ", " (lines.map (fun p => toString p.1 ++ ":" ++ toString p.2))

/-- The row built for one purchase order in `orders_table`. -/
def PurchaseOrder.to_row (po : PurchaseOrder) : List String :=
  [toString po.orderID, po.orderDate, toString po.supplierID, po.status,
   renderLines po.items]

/-- `orders_table`: header plus one row per order, sorted by `orderID`;
read-only. -/
def InventorySystem.orders_table (s : InventorySystem) : List (List String) × InventorySystem :=
  (ordHeader :: (sortByKey (fun po => po.orderID) (valuesA s.orders)).map PurchaseOrder.to_row, s)

/-- The public mutating operations of the system, as invoked by the menu
layer (date strings for order creation are part of the input). -/
inductive Op where
  | addCategory (name : String)
  | addSupplier (name contact : String)
  | addItem (name : String) (price : ℚ) (category_id supplier_id : Nat)
            (current_stock reorder_level reorder_qty : Int)
  | addStock (item_id : Nat) (qty : Int)
  | consumeStock (item_id : Nat) (qty : Int)
  | createPurchaseOrder (supplier_id : Nat) (today : String)
  | createOrderForItem (item_id : Nat) (qty : Option Int) (today : String)
  | submitOrder (order_id : Nat)
  | receiveOrder (order_id : Nat)
  | cancelOrder (order_id : Nat)
deriving DecidableEq

/-- Dispatch one operation: result (unit-valued) and post state (on an
error, the state at the moment of the raise). -/
def applyOp (op : Op) (s : InventorySystem) : Except Err Unit × InventorySystem :=
  match op with
  | .addCategory name => (.ok (), (s.add_category name).2)
  | .addSupplier name contact => (.ok (), (s.add_supplier name contact).2)
  | .addItem name price cid sid st rl rq =>
    let r := s.add_item name price cid sid st rl rq
    (r.1.map (fun _ => ()), r.2)
  | .addStock iid qty => s.add_stock iid qty
  | .consumeStock iid qty =>
    let r := s.consume_stock iid qty
    (r.1.map (fun _ => ()), r.2)
  | .createPurchaseOrder sid today =>
    let r := s.create_purchase_order sid today
    (r.1.map (fun _ => ()), r.2)
  | .createOrderForItem iid qty today =>
    let r := s.create_order_for_item iid qty today
    (r.1.map (fun _ => ()), r.2)
  | .submitOrder oid => s.submit_order oid
  | .receiveOrder oid => s.receive_order oid
  | .cancelOrder oid => s.cancel_order oid

/-- Run a sequence of operations from a state (errors leave the state as
at the raise and the session continues, as in the menu loop). -/
def runOps (ops : List Op) (s : InventorySystem) : InventorySystem :=
  ops.foldl (fun t op => (applyOp op t).2) s

/-! State invariants reachable states satisfy. -/

/-- Every stored item has non-negative stock. -/
def StockOk (s : InventorySystem) : Prop :=
  ∀ p ∈ s.items, 0 ≤ p.2.currentStock

/-- Every purchase-order line quantity is non-negative. -/
def LinesOk (s : InventorySystem) : Prop :=
  ∀ o ∈ s.orders, ∀ ln ∈ o.2.items, 0 ≤ ln.2

/-- Every stored item's foreign keys resolve in the registries. -/
def RefsOk (s : InventorySystem) : Prop :=
  ∀ p ∈ s.items,
    containsA s.suppliers p.2.supplierID = true ∧
    containsA s.categories p.2.categoryID = true

/-- The combined reachable-state invariant. -/
def Good (s : InventorySystem) : Prop :=
  StockOk s ∧ LinesOk s ∧ RefsOk s

/-! Concrete fixture states used to instantiate the theorems. -/

/-- A small state: one category, one supplier, one item "Milk" with
stock 12 (reachable; used to instantiate hypotheses concretely). -/
def demoSystem : InventorySystem :=
  ⟨1002, 2, 2, 5001,
   [(1, ⟨1, "Beverage"⟩)],
   [(1, ⟨1, "Main Distributor", "sales@maindist.com"⟩)],
   [(1001, ⟨1001, "Milk", 2, 1, 1, 12, 8, 12⟩)],
   []⟩

/-- A state with two items and one submitted order whose lines are
itemID 1001 ↦ 5 and itemID 1002 ↦ 3. -/
def pairSystem : InventorySystem :=
  ⟨1003, 2, 2, 5002,
   [(1, ⟨1, "Beverage"⟩)],
   [(1, ⟨1, "Main Distributor", "sales@maindist.com"⟩)],
   [(1001, ⟨1001, "Beans", 3, 1, 1, 2, 5, 6⟩),
    (1002, ⟨1002, "Milk", 2, 1, 1, 7, 8, 12⟩)],
   [(5001, ⟨5001, "2026-10-12", 1, "SUBMITTED", [(1001, 5), (1002, 3)]⟩)]⟩

/-- A purchase order with one existing line, for line-item tests. -/
def demoOrder : PurchaseOrder :=
  ⟨5001, "2026-10-12", 1, "OPEN", [(1001, 4)]⟩

/-! Association-list lemmas (the dict model). -/

lemma findA_setA_same {V : Type} (l : List (Nat × V)) (k : Nat) (v : V) :
    findA (setA l k v) k = some v := by
  induction l with
  | nil => simp [setA, findA]
  | cons h t ih =>
    obtain ⟨k₁, v₁⟩ := h
    by_cases hk : k₁ = k
    · simp [setA, hk, findA]
    · simp [setA, hk, findA, ih]

lemma findA_setA_ne {V : Type} (l : List (Nat × V)) (k j : Nat) (v : V) (h : j ≠ k) :
    findA (setA l k v) j = findA l j := by
  have h' : ¬ k = j := fun hh => h hh.symm
  induction l with
  | nil => simp [setA, findA, h']
  | cons hd t ih =>
    obtain ⟨k₁, v₁⟩ := hd
    by_cases hk : k₁ = k
    · subst hk
      simp [setA, findA, h']
    · simp only [setA, if_neg hk, findA]
      by_cases hj : k₁ = j
      · simp [hj]
      · simp [hj, ih]

lemma findA_modifyA_same {V : Type} (l : List (Nat × V)) (k : Nat) (f : V → V) :
    findA (modifyA l k f) k = (findA l k).map f := by
  induction l with
  | nil => simp [modifyA, findA]
  | cons hd t ih =>
    obtain ⟨k₁, v₁⟩ := hd
    by_cases hk : k₁ = k
    · simp [modifyA, hk, findA]
    · simp [modifyA, hk, findA, ih]

lemma findA_modifyA_ne {V : Type} (l : List (Nat × V)) (k j : Nat) (f : V → V) (h : j ≠ k) :
    findA (modifyA l k f) j = findA l j := by
  have h' : ¬ k = j := fun hh => h hh.symm
  induction l with
  | nil => simp [modifyA]
  | cons hd t ih =>
    obtain ⟨k₁, v₁⟩ := hd
    by_cases hk : k₁ = k
    · subst hk
      simp [modifyA, findA, h']
    · simp only [modifyA, if_neg hk, findA]
      by_cases hj : k₁ = j
      · simp [hj]
      · simp [hj, ih]

lemma containsA_modifyA {V : Type} (l : List (Nat × V)) (k j : Nat) (f : V → V) :
    containsA (modifyA l k f) j = containsA l j := by
  unfold containsA
  by_cases hj : j = k
  · subst hj
    rw [findA_modifyA_same]
    cases findA l j <;> rfl
  · rw [findA_modifyA_ne l k j f hj]

lemma findA_mem {V : Type} {l : List (Nat × V)} {k : Nat} {v : V}
    (h : findA l k = some v) : (k, v) ∈ l := by
  induction l with
  | nil => simp [findA] at h
  | cons hd t ih =>
    obtain ⟨k₁, v₁⟩ := hd
    by_cases hk : k₁ = k
    · subst hk
      simp [findA] at h
      simp [h]
    · simp only [findA, if_neg hk] at h
      exact List.mem_cons_of_mem _ (ih h)

lemma mem_setA {V : Type} {l : List (Nat × V)} {k : Nat} {v : V} {p : Nat × V}
    (h : p ∈ setA l k v) : p ∈ l ∨ p = (k, v) := by
  induction l with
  | nil => simp [setA] at h; simp [h]
  | cons hd t ih =>
    obtain ⟨k₁, v₁⟩ := hd
    by_cases hk : k₁ = k
    · subst hk
      simp only [setA, if_pos rfl] at h
      rcases List.mem_cons.mp h with h₁ | h₁
      · exact Or.inr h₁
      · exact Or.inl (List.mem_cons_of_mem _ h₁)
    · simp only [setA, if_neg hk] at h
      rcases List.mem_cons.mp h with h₁ | h₁
      · exact Or.inl (by simp [h₁])
      · rcases ih h₁ with h₂ | h₂
        · exact Or.inl (List.mem_cons_of_mem _ h₂)
        · exact Or.inr h₂

lemma mem_modifyA {V : Type} {l : List (Nat × V)} {k : Nat} {f : V → V} {p : Nat × V}
    (h : p ∈ modifyA l k f) : p ∈ l ∨ ∃ w, findA l k = some w ∧ p = (k, f w) := by
  induction l with
  | nil => simp [modifyA] at h
  | cons hd t ih =>
    obtain ⟨k₁, v₁⟩ := hd
    by_cases hk : k₁ = k
    · subst hk
      simp only [modifyA, if_pos rfl] at h
      rcases List.mem_cons.mp h with h₁ | h₁
      · exact Or.inr ⟨v₁, by simp [findA], h₁⟩
      · exact Or.inl (List.mem_cons_of_mem _ h₁)
    · simp only [modifyA, if_neg hk] at h
      rcases List.mem_cons.mp h with h₁ | h₁
      · exact Or.inl (by simp [h₁])
      · rcases ih h₁ with h₂ | h₂
        · exact Or.inl (List.mem_cons_of_mem _ h₂)
        · obtain ⟨w, hw, hp⟩ := h₂
          exact Or.inr ⟨w, by simp [findA, if_neg hk, hw], hp⟩

lemma containsA_setA_self {V : Type} (l : List (Nat × V)) (k : Nat) (v : V) :
    containsA (setA l k v) k = true := by
  unfold containsA
  rw [findA_setA_same]
  rfl

lemma containsA_setA_of {V : Type} {l : List (Nat × V)} {j : Nat} (k : Nat) (v : V)
    (h : containsA l j = true) : containsA (setA l k v) j = true := by
  by_cases hj : j = k
  · subst hj
    exact containsA_setA_self l j v
  · unfold containsA at h ⊢
    rw [findA_setA_ne l k j v hj]
    exact h

lemma containsA_iff_findA {V : Type} (l : List (Nat × V)) (k : Nat) :
    containsA l k = true ↔ ∃ v, findA l k = some v := by
  unfold containsA
  exact Option.isSome_iff_exists

lemma good_initSystem : Good initSystem := by
  refine ⟨?_, ?_, ?_⟩ <;> intro p hp <;> simp [initSystem] at hp

lemma applyLines_stock {items : List (Nat × InventoryItem)} {lines : List (Nat × Int)}
    (hitems : ∀ p ∈ items, 0 ≤ p.2.currentStock) (hlines : ∀ ln ∈ lines, 0 ≤ ln.2) :
    ∀ p ∈ InventorySystem.applyLines items lines, 0 ≤ p.2.currentStock := by
  induction lines generalizing items with
  | nil => simpa [InventorySystem.applyLines] using hitems
  | cons ln t ih =>
    have hln : 0 ≤ ln.2 := hlines ln (List.mem_cons_self _ _)
    have ht : ∀ x ∈ t, 0 ≤ x.2 := fun x hx => hlines x (List.mem_cons_of_mem _ hx)
    show ∀ p ∈ InventorySystem.applyLines _ (ln :: t), _
    rw [InventorySystem.applyLines, List.foldl_cons]
    by_cases hc : containsA items ln.1 = true
    · rw [if_pos hc]
      refine ih ?_ ht
      intro p hp
      rcases mem_modifyA hp with h₁ | ⟨w, hw, hp₁⟩
      · exact hitems p h₁
      · have hw₀ : 0 ≤ w.currentStock := hitems (ln.1, w) (findA_mem hw)
        subst hp₁
        simpa using add_nonneg hw₀ hln
    · rw [if_neg hc]
      exact ih hitems ht

lemma applyLines_fields {items : List (Nat × InventoryItem)} {lines : List (Nat × Int)} :
    ∀ p ∈ InventorySystem.applyLines items lines,
      ∃ q ∈ items, p.2.supplierID = q.2.supplierID ∧ p.2.categoryID = q.2.categoryID := by
  induction lines generalizing items with
  | nil =>
    intro p hp
    rw [InventorySystem.applyLines, List.foldl_nil] at hp
    exact ⟨p, hp, rfl, rfl⟩
  | cons ln t ih =>
    intro p hp
    rw [InventorySystem.applyLines, List.foldl_cons] at hp
    by_cases hc : containsA items ln.1 = true
    · rw [if_pos hc] at hp
      obtain ⟨q, hq, hsup, hcat⟩ := ih p hp
      rcases mem_modifyA hq with h₁ | ⟨w, hw, hq₁⟩
      · exact ⟨q, h₁, hsup, hcat⟩
      · subst hq₁
        exact ⟨(ln.1, w), findA_mem hw, hsup, hcat⟩
    · rw [if_neg hc] at hp
      exact ih p hp

lemma good_applyOp (op : Op) (s : InventorySystem) (hs : Good s) :
    Good (applyOp op s).2 := by
  obtain ⟨hstock, hlines, hrefs⟩ := hs
  cases op with
  | addCategory name =>
    refine ⟨hstock, hlines, ?_⟩
    intro p hp
    obtain ⟨h₁, h₂⟩ := hrefs p hp
    exact ⟨h₁, containsA_setA_of _ _ h₂⟩
  | addSupplier name contact =>
    refine ⟨hstock, hlines, ?_⟩
    intro p hp
    obtain ⟨h₁, h₂⟩ := hrefs p hp
    exact ⟨containsA_setA_of _ _ h₁, h₂⟩
  | addItem name price cid sid st rl rq =>
    simp only [applyOp, InventorySystem.add_item]
    by_cases hc : containsA s.categories cid = false
    · rw [if_pos hc]
      exact ⟨hstock, hlines, hrefs⟩
    · rw [if_neg hc]
      by_cases hsup : containsA s.suppliers sid = false
      · rw [if_pos hsup]
        exact ⟨hstock, hlines, hrefs⟩
      · rw [if_neg hsup]
        have hc' : containsA s.categories cid = true := by
          cases h : containsA s.categories cid
          · exact absurd h hc
          · rfl
        have hsup' : containsA s.suppliers sid = true := by
          cases h : containsA s.suppliers sid
          · exact absurd h hsup
          · rfl
        refine ⟨?_, hlines, ?_⟩
        · intro p hp
          rcases mem_setA hp with h₁ | h₁
          · exact hstock p h₁
          · subst h₁
            exact le_max_left 0 st
        · intro p hp
          rcases mem_setA hp with h₁ | h₁
          · exact hrefs p h₁
          · subst h₁
            exact ⟨hsup', hc'⟩
  | addStock iid qty =>
    simp only [applyOp, InventorySystem.add_stock]
    by_cases hc : containsA s.items iid = false
    · rw [if_pos hc]
      exact ⟨hstock, hlines, hrefs⟩
    · rw [if_neg hc]
      refine ⟨?_, hlines, ?_⟩
      · intro p hp
        rcases mem_modifyA hp with h₁ | ⟨w, hw, hp₁⟩
        · exact hstock p h₁
        · have hw₀ : 0 ≤ w.currentStock := hstock (iid, w) (findA_mem hw)
          subst hp₁
          simpa using add_nonneg hw₀ (le_max_left 0 qty)
      · intro p hp
        rcases mem_modifyA hp with h₁ | ⟨w, hw, hp₁⟩
        · exact hrefs p h₁
        · subst hp₁
          exact hrefs (iid, w) (findA_mem hw)
  | consumeStock iid qty =>
    simp only [applyOp, InventorySystem.consume_stock]
    cases hfind : findA s.items iid with
    | none => exact ⟨hstock, hlines, hrefs⟩
    | some item =>
      dsimp only
      by_cases hq : max 0 qty ≤ item.currentStock
      · rw [if_pos hq]
        refine ⟨?_, hlines, ?_⟩
        · intro p hp
          rcases mem_modifyA hp with h₁ | ⟨w, hw, hp₁⟩
          · exact hstock p h₁
          · rw [hfind] at hw
            injection hw with hw
            subst hw
            subst hp₁
            simpa using hq
        · intro p hp
          rcases mem_modifyA hp with h₁ | ⟨w, hw, hp₁⟩
          · exact hrefs p h₁
          · subst hp₁
            exact hrefs (iid, w) (findA_mem hw)
      · rw [if_neg hq]
        exact ⟨hstock, hlines, hrefs⟩
  | createPurchaseOrder sid today =>
    simp only [applyOp, InventorySystem.create_purchase_order]
    by_cases hc : containsA s.suppliers sid = false
    · rw [if_pos hc]
      exact ⟨hstock, hlines, hrefs⟩
    · rw [if_neg hc]
      refine ⟨hstock, ?_, hrefs⟩
      intro o ho
      rcases mem_setA ho with h₁ | h₁
      · exact hlines o h₁
      · subst h₁
        intro ln hln
        simp at hln
  | createOrderForItem iid qty today =>
    simp only [applyOp, InventorySystem.create_order_for_item]
    cases hfind : findA s.items iid with
    | none => exact ⟨hstock, hlines, hrefs⟩
    | some item =>
      simp only [InventorySystem.create_purchase_order]
      have hsup : containsA s.suppliers item.supplierID = true :=
        (hrefs (iid, item) (findA_mem hfind)).1
      rw [hsup]
      simp only [Bool.true_eq_false, if_false]
      refine ⟨hstock, ?_, hrefs⟩
      intro o ho
      simp only at ho
      rcases mem_modifyA ho with h₁ | ⟨w, hw, ho₁⟩
      · rcases mem_setA h₁ with h₂ | h₂
        · exact hlines o h₂
        · subst h₂
          intro ln hln
          simp at hln
      · subst ho₁
        have hwl : ∀ ln ∈ w.items, 0 ≤ ln.2 := by
          have hw' := findA_mem hw
          rcases mem_setA hw' with h₂ | h₂
          · exact hlines _ h₂
          · intro ln hln
            rw [show w = (⟨s.po_id, today, item.supplierID, "OPEN", []⟩ : PurchaseOrder)
                  from congrArg Prod.snd h₂] at hln
            simp at hln
        intro ln hln
        simp only [PurchaseOrder.add_item] at hln
        rcases mem_setA hln with h₂ | h₂
        · exact hwl ln h₂
        · subst h₂
          have h₀ : 0 ≤ (findA w.items iid).getD 0 := by
            cases hfw : findA w.items iid with
            | none => simp
            | some z => simpa using hwl (iid, z) (findA_mem hfw)
          simpa using add_nonneg h₀ (le_max_left 0 _)
  | submitOrder oid =>
    simp only [applyOp, InventorySystem.submit_order]
    cases hfind : findA s.orders oid with
    | none => exact ⟨hstock, hlines, hrefs⟩
    | some po =>
      refine ⟨hstock, ?_, hrefs⟩
      intro o ho
      simp only at ho
      rcases mem_modifyA ho with h₁ | ⟨w, hw, ho₁⟩
      · exact hlines o h₁
      · subst ho₁
        exact hlines (oid, w) (findA_mem hw)
  | receiveOrder oid =>
    simp only [applyOp, InventorySystem.receive_order]
    cases hfind : findA s.orders oid with
    | none => exact ⟨hstock, hlines, hrefs⟩
    | some po =>
      have hpo : ∀ ln ∈ po.items, 0 ≤ ln.2 := hlines (oid, po) (findA_mem hfind)
      refine ⟨?_, ?_, ?_⟩
      · exact applyLines_stock hstock hpo
      · intro o ho
        simp only at ho
        rcases mem_modifyA ho with h₁ | ⟨w, hw, ho₁⟩
        · exact hlines o h₁
        · subst ho₁
          exact hlines (oid, w) (findA_mem hw)
      · intro p hp
        simp only at hp
        obtain ⟨q, hq, hsup, hcat⟩ := applyLines_fields p hp
        obtain ⟨h₁, h₂⟩ := hrefs q hq
        rw [hsup, hcat]
        exact ⟨h₁, h₂⟩
  | cancelOrder oid =>
    simp only [applyOp, InventorySystem.cancel_order]
    cases hfind : findA s.orders oid with
    | none => exact ⟨hstock, hlines, hrefs⟩
    | some po =>
      refine ⟨hstock, ?_, hrefs⟩
      intro o ho
      simp only at ho
      rcases mem_modifyA ho with h₁ | ⟨w, hw, ho₁⟩
      · exact hlines o h₁
      · subst ho₁
        exact hlines (oid, w) (findA_mem hw)

lemma good_runOps_of (ops : List Op) (s : InventorySystem) (hs : Good s) :
    Good (runOps ops s) := by
  induction ops generalizing s with
  | nil => exact hs
  | cons op t ih =>
    rw [runOps, List.foldl_cons]
    exact ih _ (good_applyOp op s hs)

lemma good_runOps (ops : List Op) : Good (runOps ops initSystem) :=
  good_runOps_of ops initSystem good_initSystem

/-! Sorting and rendering lemmas. -/

lemma mem_insSorted {V : Type} (key : V → Nat) (x z : V) (l : List V) :
    z ∈ insSorted key x l ↔ z = x ∨ z ∈ l := by
  induction l with
  | nil => simp [insSorted]
  | cons y t ih =>
    by_cases h : key x < key y
    · simp [insSorted, if_pos h]
    · simp only [insSorted, if_neg h, List.mem_cons, ih]
      tauto

lemma insSorted_pairwise {V : Type} (key : V → Nat) (x : V) (l : List V)
    (h : l.Pairwise (fun a b => key a ≤ key b)) :
    (insSorted key x l).Pairwise (fun a b => key a ≤ key b) := by
  induction l with
  | nil => simp [insSorted]
  | cons y t ih =>
    rw [List.pairwise_cons] at h
    obtain ⟨hy, ht⟩ := h
    by_cases hlt : key x < key y
    · rw [insSorted, if_pos hlt, List.pairwise_cons]
      refine ⟨?_, List.pairwise_cons.mpr ⟨hy, ht⟩⟩
      intro z hz
      rcases List.mem_cons.mp hz with h₁ | h₁
      · subst h₁
        exact le_of_lt hlt
      · exact le_trans (le_of_lt hlt) (hy z h₁)
    · rw [insSorted, if_neg hlt, List.pairwise_cons]
      refine ⟨?_, ih ht⟩
      intro z hz
      rcases (mem_insSorted key x z t).mp hz with h₁ | h₁
      · subst h₁
        omega
      · exact hy z h₁

lemma sortByKey_pairwise {V : Type} (key : V → Nat) (l : List V) :
    (sortByKey key l).Pairwise (fun a b => key a ≤ key b) := by
  suffices h : ∀ acc : List V, acc.Pairwise (fun a b => key a ≤ key b) →
      (l.foldl (fun acc x => insSorted key x acc) acc).Pairwise (fun a b => key a ≤ key b) by
    exact h [] (List.Pairwise.nil)
  induction l with
  | nil => intro acc hacc; simpa using hacc
  | cons x t ih =>
    intro acc hacc
    rw [List.foldl_cons]
    exact ih _ (insSorted_pairwise key x acc hacc)

lemma pad2_spec : ∀ m : Nat, m < 100 →
    (pad2 m).length = 2 ∧ ((pad2 m).toList.all Char.isDigit) = true := by
  decide

lemma formatCurrency_shape (q : ℚ) :
    ∃ body cents, formatCurrency q = "$" ++ body ++ "." ++ cents ∧
      cents.length = 2 ∧ cents.toList.all Char.isDigit = true := by
  refine ⟨(if (⌊q * 100 + 1 / 2⌋ : Int) < 0 then "-" else "") ++
            toString ((⌊q * 100 + 1 / 2⌋ : Int).natAbs / 100),
          pad2 ((⌊q * 100 + 1 / 2⌋ : Int).natAbs % 100), ?_, ?_, ?_⟩
  · rw [formatCurrency, formatFixed2]
    simp only [String.append_assoc]
  · exact (pad2_spec _ (Nat.mod_lt _ (by norm_num))).1
  · exact (pad2_spec _ (Nat.mod_lt _ (by norm_num))).2

/-! Claim theorems. -/

/-- C2: `consume_stock` on an unknown itemID fails with the
"Item not found" error (a NotFoundError in the spec taxonomy) leaving the
state unchanged; on a known item it clamps qty to ≥ 0, then returns true
and decrements exactly that item's currentStock by the clamped qty when
currentStock ≥ clamped qty, and otherwise returns false leaving the whole
state (all collections and counters) unchanged. -/
theorem consume_stock_spec (s : InventorySystem) (item_id : Nat) (qty : Int) :
    (findA s.items item_id = none →
      s.consume_stock item_id qty = (Except.error Err.itemNotFound, s) ∧
      Err.itemNotFound.isNotFoundError = true) ∧
    (∀ item, findA s.items item_id = some item →
      (max 0 qty ≤ item.currentStock →
        s.consume_stock item_id qty =
          (Except.ok true,
           { s with items := (modifyA s.items item_id
               (fun it => { it with currentStock := it.currentStock - max 0 qty })) })) ∧
      (item.currentStock < max 0 qty →
        s.consume_stock item_id qty = (Except.ok false, s))) := by
  refine ⟨?_, ?_⟩
  · intro h
    refine ⟨?_, rfl⟩
    simp only [InventorySystem.consume_stock, h]
  · intro item h
    refine ⟨?_, ?_⟩
    · intro hq
      simp only [InventorySystem.consume_stock, h]
      rw [if_pos hq]
    · intro hq
      simp only [InventorySystem.consume_stock, h]
      rw [if_neg (not_le.mpr hq)]

/-- Witness for C2: in `demoSystem` (Milk, stock 12), consuming 5 returns
true and leaves the item at stock 7; consuming 20 returns false and the
state is untouched. -/
theorem consume_stock_spec_witness :
    demoSystem.consume_stock 1001 5 =
      (Except.ok true,
       ⟨1002, 2, 2, 5001,
        [(1, ⟨1, "Beverage"⟩)],
        [(1, ⟨1, "Main Distributor", "sales@maindist.com"⟩)],
        [(1001, ⟨1001, "Milk", 2, 1, 1, 7, 8, 12⟩)],
        []⟩) ∧
    demoSystem.consume_stock 1001 20 = (Except.ok false, demoSystem) := by
  constructor
  · have h := ((consume_stock_spec demoSystem 1001 5).2
      ⟨1001, "Milk", 2, 1, 1, 12, 8, 12⟩ rfl).1 (by decide)
    rw [h]
    rfl
  · have h := ((consume_stock_spec demoSystem 1001 20).2
      ⟨1001, "Milk", 2, 1, 1, 12, 8, 12⟩ rfl).2 (by decide)
    rw [h]

/-- C4: every operation of the system is atomic on failure: whenever an
operation returns an error, the state it leaves behind (all four entity
collections and all four identifier counters) is exactly the pre-call
state — in the source, every `raise` happens before any mutation. -/
theorem applyOp_atomic_on_error (op : Op) (s : InventorySystem) (e : Err)
    (h : (applyOp op s).1 = Except.error e) : (applyOp op s).2 = s := by
  cases op with
  | addCategory name => simp [applyOp] at h
  | addSupplier name contact => simp [applyOp] at h
  | addItem name price cid sid st rl rq =>
    by_cases hc : containsA s.categories cid = false
    · simp [applyOp, Except.map, InventorySystem.add_item, hc]
    · by_cases hsup : containsA s.suppliers sid = false
      · simp [applyOp, Except.map, InventorySystem.add_item, hc, hsup]
      · simp [applyOp, Except.map, InventorySystem.add_item, hc, hsup] at h
  | addStock iid qty =>
    by_cases hc : containsA s.items iid = false
    · simp [applyOp, Except.map, InventorySystem.add_stock, hc]
    · simp [applyOp, Except.map, InventorySystem.add_stock, hc] at h
  | consumeStock iid qty =>
    cases hfind : findA s.items iid with
    | none => simp [applyOp, Except.map, InventorySystem.consume_stock, hfind]
    | some item =>
      by_cases hq : max 0 qty ≤ item.currentStock
      · simp [applyOp, Except.map, InventorySystem.consume_stock, hfind, hq] at h
      · simp [applyOp, Except.map, InventorySystem.consume_stock, hfind, hq] at h
  | createPurchaseOrder sid today =>
    by_cases hc : containsA s.suppliers sid = false
    · simp [applyOp, Except.map, InventorySystem.create_purchase_order, hc]
    · simp [applyOp, Except.map, InventorySystem.create_purchase_order, hc] at h
  | createOrderForItem iid qty today =>
    cases hfind : findA s.items iid with
    | none => simp [applyOp, Except.map, InventorySystem.create_order_for_item, hfind]
    | some item =>
      by_cases hc : containsA s.suppliers item.supplierID = false
      · simp [applyOp, Except.map, InventorySystem.create_order_for_item, hfind,
              InventorySystem.create_purchase_order, hc]
      · simp [applyOp, Except.map, InventorySystem.create_order_for_item, hfind,
              InventorySystem.create_purchase_order, hc] at h
  | submitOrder oid =>
    cases hfind : findA s.orders oid with
    | none => simp [applyOp, Except.map, InventorySystem.submit_order, hfind]
    | some po => simp [applyOp, Except.map, InventorySystem.submit_order, hfind] at h
  | receiveOrder oid =>
    cases hfind : findA s.orders oid with
    | none => simp [applyOp, Except.map, InventorySystem.receive_order, hfind]
    | some po => simp [applyOp, Except.map, InventorySystem.receive_order, hfind] at h
  | cancelOrder oid =>
    cases hfind : findA s.orders oid with
    | none => simp [applyOp, Except.map, InventorySystem.cancel_order, hfind]
    | some po => simp [applyOp, Except.map, InventorySystem.cancel_order, hfind] at h

/-- Witness for C4: adding stock to a missing item in the empty system
errors and leaves the state intact. -/
theorem applyOp_atomic_on_error_witness :
    (applyOp (Op.addStock 1 5) initSystem).1 = Except.error Err.itemNotFound ∧
    (applyOp (Op.addStock 1 5) initSystem).2 = initSystem :=
  ⟨rfl, applyOp_atomic_on_error (Op.addStock 1 5) initSystem Err.itemNotFound rfl⟩

/-- C7: adding a line item to a purchase order clamps the quantity to
≥ 0 and accumulates onto an existing line for the same itemID (creating
the line, at the clamped quantity, when absent); lines for other itemIDs
are untouched. -/
theorem po_add_item_spec (po : PurchaseOrder) (item_id : Nat) (qty : Int) :
    findA (po.add_item item_id qty).items item_id
      = some ((findA po.items item_id).getD 0 + max 0 qty) ∧
    (∀ j, j ≠ item_id → findA (po.add_item item_id qty).items j = findA po.items j) := by
  constructor
  · exact findA_setA_same po.items item_id _
  · intro j hj
    exact findA_setA_ne po.items item_id j _ hj

/-- Witness for C7: on `demoOrder` (line 1001 ↦ 4), adding qty −2 for
item 1001 clamps to 0 and keeps the line at 4; item 1002 stays absent. -/
theorem po_add_item_spec_witness :
    findA (demoOrder.add_item 1001 (-2)).items 1001 = some 4 ∧
    findA (demoOrder.add_item 1001 (-2)).items 1002 = none := by
  constructor
  · have h := (po_add_item_spec demoOrder 1001 (-2)).1
    rw [h]
    decide
  · have h := (po_add_item_spec demoOrder 1001 (-2)).2 1002 (by decide)
    rw [h]
    rfl

/-- C5: `add_item` with an unresolved categoryID (resp. an unresolved
supplierID) fails with a reference error ("Category does not exist" /
"Supplier does not exist") and the state — in particular the item
collection — is exactly unchanged; when both references resolve, the new
itemID (the current counter value) is returned and the stored item has
currentStock and reorderLevel clamped to ≥ 0 and reorderQty clamped
to ≥ 1. -/
theorem add_item_spec (s : InventorySystem) (name : String) (price : ℚ)
    (category_id supplier_id : Nat) (current_stock reorder_level reorder_qty : Int) :
    (containsA s.categories category_id = false →
      s.add_item name price category_id supplier_id current_stock reorder_level reorder_qty
        = (Except.error Err.categoryDoesNotExist, s) ∧
      Err.categoryDoesNotExist.isReferenceError = true) ∧
    (containsA s.categories category_id = true →
     containsA s.suppliers supplier_id = false →
      s.add_item name price category_id supplier_id current_stock reorder_level reorder_qty
        = (Except.error Err.supplierDoesNotExist, s) ∧
      Err.supplierDoesNotExist.isReferenceError = true) ∧
    (containsA s.categories category_id = true →
     containsA s.suppliers supplier_id = true →
      s.add_item name price category_id supplier_id current_stock reorder_level reorder_qty
        = (Except.ok s.item_id,
           { s with item_id := s.item_id + 1,
                    items := setA s.items s.item_id
                      ⟨s.item_id, name, price, category_id, supplier_id,
                       max 0 current_stock, max 0 reorder_level, max 1 reorder_qty⟩ }) ∧
      0 ≤ max 0 current_stock ∧ 0 ≤ max 0 reorder_level ∧ 1 ≤ max 1 reorder_qty) := by
  refine ⟨?_, ?_, ?_⟩
  · intro hc
    rw [InventorySystem.add_item, if_pos hc]
    exact ⟨rfl, rfl⟩
  · intro hc hsup
    rw [InventorySystem.add_item, if_neg (by simp [hc]), if_pos hsup]
    exact ⟨rfl, rfl⟩
  · intro hc hsup
    rw [InventorySystem.add_item, if_neg (by simp [hc]), if_neg (by simp [hsup])]
    exact ⟨rfl, le_max_left 0 _, le_max_left 0 _, le_max_left 1 _⟩

/-- Witness for C5: in `demoSystem`, adding an item under the missing
category 9 fails and inserts nothing; a valid add with negative stock
fields stores the clamped item ⟨1002, stock 0, level 0, qty 1⟩ and
returns 1002. -/
theorem add_item_spec_witness :
    demoSystem.add_item "Cups" 7 9 1 0 5 10
      = (Except.error Err.categoryDoesNotExist, demoSystem) ∧
    demoSystem.add_item "Cups" 7 1 1 (-3) (-4) (-5)
      = (Except.ok 1002,
         ⟨1003, 2, 2, 5001,
          [(1, ⟨1, "Beverage"⟩)],
          [(1, ⟨1, "Main Distributor", "sales@maindist.com"⟩)],
          [(1001, ⟨1001, "Milk", 2, 1, 1, 12, 8, 12⟩),
           (1002, ⟨1002, "Cups", 7, 1, 1, 0, 0, 1⟩)],
          []⟩) := by
  constructor
  · exact ((add_item_spec demoSystem "Cups" 7 9 1 0 5 10).1 rfl).1
  · have h := (((add_item_spec demoSystem "Cups" 7 1 1 (-3) (-4) (-5)).2.2) rfl rfl).1
    rw [h]
    rfl

/-- C8 counterexample: the claim says `search_items` returns exactly the
items whose name, compared case-insensitively, contains the keyword as a
substring. The code first strips the keyword (`keyword.lower().strip()`):
for the keyword "Milk " (trailing blank) on a catalog whose only item is
named "Milk", the item is returned although its lowercased name does not
contain the lowercased keyword "milk " — so the claim's description of
the returned set is false at this input. -/
theorem search_items_claim_counterexample :
    demoSystem.search_items "Milk " = [⟨1001, "Milk", 2, 1, 1, 12, 8, 12⟩] ∧
    InventorySystem.containsSub (InventorySystem.lowerStr "Milk ").toList
      (InventorySystem.lowerStr "Milk").toList = false := by
  constructor
  · decide
  · decide

/-- C8 (amended): for every keyword, `search_items` returns exactly those
items whose lowercased name contains the lowercased,
whitespace-stripped keyword as a substring, as an order-preserving
subsequence of the item collection's insertion order. -/
theorem search_items_characterization (s : InventorySystem) (keyword : String) :
    (s.search_items keyword).Sublist (valuesA s.items) ∧
    (∀ it : InventoryItem, it ∈ s.search_items keyword ↔
      (it ∈ valuesA s.items ∧
       InventorySystem.containsSub
         (InventorySystem.stripStr (InventorySystem.lowerStr keyword)).toList
         (InventorySystem.lowerStr it.name).toList = true)) := by
  constructor
  · exact List.filter_sublist _
  · intro it
    simp [InventorySystem.search_items, List.mem_filter]

/-- Witness for C8 (amended): in `demoSystem`, the keyword " MILK " finds
the item named "Milk", whose lowered name contains the stripped lowered
keyword. -/
theorem search_items_characterization_witness :
    (⟨1001, "Milk", 2, 1, 1, 12, 8, 12⟩ : InventoryItem)
        ∈ demoSystem.search_items " MILK " :=
  ((search_items_characterization demoSystem " MILK ").2 _).mpr ⟨by decide, by decide⟩

lemma applyLines_pair {items : List (Nat × InventoryItem)} {A B : Nat} {a b : Int}
    {itA itB : InventoryItem} (hAB : A ≠ B)
    (hA : findA items A = some itA) (hB : findA items B = some itB) :
    findA (InventorySystem.applyLines items [(A, a), (B, b)]) A
        = some { itA with currentStock := itA.currentStock + a } ∧
    findA (InventorySystem.applyLines items [(A, a), (B, b)]) B
        = some { itB with currentStock := itB.currentStock + b } := by
  have hcA : containsA items A = true := (containsA_iff_findA _ _).mpr ⟨itA, hA⟩
  have hfB₁ : findA (modifyA items A
      (fun it => { it with currentStock := it.currentStock + a })) B = some itB := by
    rw [findA_modifyA_ne _ _ _ _ (Ne.symm hAB)]
    exact hB
  have happ : InventorySystem.applyLines items [(A, a), (B, b)]
      = modifyA (modifyA items A (fun it => { it with currentStock := it.currentStock + a }))
          B (fun it => { it with currentStock := it.currentStock + b }) := by
    rw [InventorySystem.applyLines]
    simp only [List.foldl_cons, List.foldl_nil]
    rw [if_pos hcA, if_pos ((containsA_iff_findA _ _).mpr ⟨itB, hfB₁⟩)]
  constructor
  · rw [happ, findA_modifyA_ne _ _ _ _ hAB, findA_modifyA_same, hA]
    rfl
  · rw [happ, findA_modifyA_same, hfB₁]
    rfl

/-- C3: receiving an order whose lines are exactly A ↦ 5 and B ↦ 3 (both
items present in the catalog) increases A's stock by 5 and B's by 3 and
sets the order's status to RECEIVED; a second `receive_order` on the same
order succeeds again — there is no guard on the prior status — and
applies the same increases a second time (+10 / +6 in total). -/
theorem receive_order_two_lines (s : InventorySystem) (oid A B : Nat)
    (po : PurchaseOrder) (itA itB : InventoryItem)
    (hAB : A ≠ B)
    (hpo : findA s.orders oid = some po)
    (hlines : po.items = [(A, 5), (B, 3)])
    (hA : findA s.items A = some itA)
    (hB : findA s.items B = some itB) :
    ((s.receive_order oid).1 = Except.ok ()) ∧
    (findA (s.receive_order oid).2.items A
      = some { itA with currentStock := itA.currentStock + 5 }) ∧
    (findA (s.receive_order oid).2.items B
      = some { itB with currentStock := itB.currentStock + 3 }) ∧
    (findA (s.receive_order oid).2.orders oid
      = some { po with status := "RECEIVED" }) ∧
    (findA ((s.receive_order oid).2.receive_order oid).2.items A
      = some { itA with currentStock := itA.currentStock + 5 + 5 }) ∧
    (findA ((s.receive_order oid).2.receive_order oid).2.items B
      = some { itB with currentStock := itB.currentStock + 3 + 3 }) ∧
    (findA ((s.receive_order oid).2.receive_order oid).2.orders oid
      = some { po with status := "RECEIVED" }) := by
  have h₁ : s.receive_order oid
      = (Except.ok (),
         { s with items := InventorySystem.applyLines s.items po.items,
                  orders := (modifyA s.orders oid
                    (fun p => { p with status := "RECEIVED" })) }) := by
    rw [InventorySystem.receive_order, hpo]
  have hitems₁ := applyLines_pair (a := 5) (b := 3) hAB hA hB
  have horders₁ : findA (s.receive_order oid).2.orders oid
      = some { po with status := "RECEIVED" } := by
    rw [h₁]
    show findA (modifyA _ _ _) _ = _
    rw [findA_modifyA_same, hpo]
    rfl
  have hiA₁ : findA (s.receive_order oid).2.items A
      = some { itA with currentStock := itA.currentStock + 5 } := by
    rw [h₁]
    show findA (InventorySystem.applyLines s.items po.items) A = _
    rw [hlines]
    exact hitems₁.1
  have hiB₁ : findA (s.receive_order oid).2.items B
      = some { itB with currentStock := itB.currentStock + 3 } := by
    rw [h₁]
    show findA (InventorySystem.applyLines s.items po.items) B = _
    rw [hlines]
    exact hitems₁.2
  have hlines' : ({ po with status := "RECEIVED" } : PurchaseOrder).items
      = [(A, 5), (B, 3)] := hlines
  have h₂ : (s.receive_order oid).2.receive_order oid
      = (Except.ok (),
         { (s.receive_order oid).2 with
           items := InventorySystem.applyLines (s.receive_order oid).2.items
             ({ po with status := "RECEIVED" } : PurchaseOrder).items,
           orders := (modifyA (s.receive_order oid).2.orders oid
             (fun p => { p with status := "RECEIVED" })) }) := by
    rw [InventorySystem.receive_order, horders₁]
  have hitems₂ := applyLines_pair (a := 5) (b := 3) hAB hiA₁ hiB₁
  refine ⟨by rw [h₁], hiA₁, hiB₁, horders₁, ?_, ?_, ?_⟩
  · rw [h₂]
    show findA (InventorySystem.applyLines _ _) A = _
    rw [hlines']
    exact hitems₂.1
  · rw [h₂]
    show findA (InventorySystem.applyLines _ _) B = _
    rw [hlines']
    exact hitems₂.2
  · rw [h₂]
    show findA (modifyA _ _ _) _ = _
    rw [findA_modifyA_same, horders₁]
    rfl

/-- Witness for C3: in `pairSystem` (Beans at 2, Milk at 7, order 5001
with lines 1001 ↦ 5 and 1002 ↦ 3), receiving twice brings Beans to 12 and
Milk to 13, with the order RECEIVED. -/
theorem receive_order_two_lines_witness :
    (findA ((pairSystem.receive_order 5001).2.receive_order 5001).2.items 1001
      = some ⟨1001, "Beans", 3, 1, 1, 12, 5, 6⟩) ∧
    (findA ((pairSystem.receive_order 5001).2.receive_order 5001).2.items 1002
      = some ⟨1002, "Milk", 2, 1, 1, 13, 8, 12⟩) ∧
    (findA ((pairSystem.receive_order 5001).2.receive_order 5001).2.orders 5001
      = some ⟨5001, "2026-10-12", 1, "RECEIVED", [(1001, 5), (1002, 3)]⟩) := by
  have h := receive_order_two_lines pairSystem 5001 1001 1002
    ⟨5001, "2026-10-12", 1, "SUBMITTED", [(1001, 5), (1002, 3)]⟩
    ⟨1001, "Beans", 3, 1, 1, 2, 5, 6⟩ ⟨1002, "Milk", 2, 1, 1, 7, 8, 12⟩
    (by decide) rfl rfl rfl rfl
  exact ⟨h.2.2.2.2.1.trans (by decide), h.2.2.2.2.2.1.trans (by decide),
         h.2.2.2.2.2.2.trans (by decide)⟩

/-- C1: after any sequence of public operations applied to the initially
empty system, every stored item's currentStock is ≥ 0 (and since every
prefix of a sequence is itself a sequence, the invariant holds before and
after each operation). -/
theorem stock_nonneg_over_runs (ops : List Op) :
    ∀ it ∈ valuesA (runOps ops initSystem).items, 0 ≤ it.currentStock := by
  intro it hit
  rcases List.mem_map.mp hit with ⟨p, hp, hpe⟩
  rw [← hpe]
  exact (good_runOps ops).1 p hp

/-- Witness for C1: a run that creates an item and consumes stock from it
leaves non-negative stock on the stored item. -/
theorem stock_nonneg_over_runs_witness :
    0 ≤ (⟨1001, "Milk", 2, 1, 1, 7, 8, 12⟩ : InventoryItem).currentStock :=
  stock_nonneg_over_runs
    [Op.addCategory "Beverage", Op.addSupplier "Main" "c",
     Op.addItem "Milk" 2 1 1 12 8 12, Op.consumeStock 1001 5]
    ⟨1001, "Milk", 2, 1, 1, 7, 8, 12⟩ (by decide)

/-- C6: in any reachable state, for every existing itemID and every
integer qty, `add_stock` followed by `consume_stock` of the same qty
succeeds (the consume returns true) and returns that item's currentStock
to its value before the pair of calls. -/
theorem add_then_consume_roundtrip (ops : List Op) (item_id : Nat) (qty : Int)
    (item : InventoryItem)
    (hfind : findA (runOps ops initSystem).items item_id = some item) :
    ((((runOps ops initSystem).add_stock item_id qty).2.consume_stock item_id qty).1
        = Except.ok true) ∧
    (∃ item₁,
      findA ((((runOps ops initSystem).add_stock item_id qty).2.consume_stock
          item_id qty).2).items item_id = some item₁ ∧
      item₁.currentStock = item.currentStock) := by
  have hstock : 0 ≤ item.currentStock :=
    (good_runOps ops).1 (item_id, item) (findA_mem hfind)
  have hc : ¬ containsA (runOps ops initSystem).items item_id = false := by
    rw [(containsA_iff_findA _ _).mpr ⟨item, hfind⟩]
    simp
  have h₁ : ((runOps ops initSystem).add_stock item_id qty).2
      = { runOps ops initSystem with
          items := (modifyA (runOps ops initSystem).items item_id
            (fun it => { it with currentStock := it.currentStock + max 0 qty })) } := by
    rw [InventorySystem.add_stock, if_neg hc]
  have hfind₁ : findA (((runOps ops initSystem).add_stock item_id qty).2).items item_id
      = some { item with currentStock := item.currentStock + max 0 qty } := by
    rw [h₁]
    show findA (modifyA _ _ _) _ = _
    rw [findA_modifyA_same, hfind]
    rfl
  have hguard : max 0 qty ≤ item.currentStock + max 0 qty :=
    le_add_of_nonneg_left hstock
  have h₂ : (((runOps ops initSystem).add_stock item_id qty).2.consume_stock item_id qty)
      = (Except.ok true,
         { ((runOps ops initSystem).add_stock item_id qty).2 with
           items := (modifyA (((runOps ops initSystem).add_stock item_id qty).2).items
             item_id
             (fun it => { it with currentStock := it.currentStock - max 0 qty })) }) := by
    rw [InventorySystem.consume_stock, hfind₁]
    dsimp only
    rw [if_pos hguard]
  refine ⟨by rw [h₂], ?_⟩
  refine ⟨{ item with currentStock := item.currentStock + max 0 qty - max 0 qty }, ?_, ?_⟩
  · rw [h₂]
    show findA (modifyA _ _ _) _ = _
    rw [findA_modifyA_same, hfind₁]
    rfl
  · simp

/-- Witness for C6: in the reachable state with Milk at stock 12, adding 9
then consuming 9 returns true and leaves the stock at 12. -/
theorem add_then_consume_roundtrip_witness :
    ((((runOps [Op.addCategory "Beverage", Op.addSupplier "Main" "c",
                Op.addItem "Milk" 2 1 1 12 8 12] initSystem).add_stock 1001 9).2.consume_stock
        1001 9).1 = Except.ok true) ∧
    (∃ item₁,
      findA ((((runOps [Op.addCategory "Beverage", Op.addSupplier "Main" "c",
                        Op.addItem "Milk" 2 1 1 12 8 12] initSystem).add_stock
          1001 9).2.consume_stock 1001 9).2).items 1001 = some item₁ ∧
      item₁.currentStock = (12 : Int)) :=
  add_then_consume_roundtrip
    [Op.addCategory "Beverage", Op.addSupplier "Main" "c",
     Op.addItem "Milk" 2 1 1 12 8 12]
    1001 9 ⟨1001, "Milk", 2, 1, 1, 12, 8, 12⟩ (by decide)

/-- C10: in every reachable state, every stored item's supplierID and
categoryID resolve in the supplier and category registries, and therefore
`create_order_for_item` never returns the "Supplier not found" error of
its internal `create_purchase_order` call. -/
theorem refs_resolve_over_runs (ops : List Op) :
    (∀ p ∈ (runOps ops initSystem).items,
      containsA (runOps ops initSystem).suppliers p.2.supplierID = true ∧
      containsA (runOps ops initSystem).categories p.2.categoryID = true) ∧
    (∀ item_id qty today,
      ((runOps ops initSystem).create_order_for_item item_id qty today).1
        ≠ Except.error Err.supplierNotFound) := by
  refine ⟨(good_runOps ops).2.2, ?_⟩
  intro item_id qty today
  cases hfind : findA (runOps ops initSystem).items item_id with
  | none =>
    rw [InventorySystem.create_order_for_item, hfind]
    simp
  | some item =>
    have hsup : containsA (runOps ops initSystem).suppliers item.supplierID = true :=
      ((good_runOps ops).2.2 (item_id, item) (findA_mem hfind)).1
    rw [InventorySystem.create_order_for_item, hfind]
    dsimp only
    rw [InventorySystem.create_purchase_order, hsup]
    simp

/-- Witness for C10: in a run that created an item, ordering it produces
no "Supplier not found" failure. -/
theorem refs_resolve_over_runs_witness :
    ((runOps [Op.addCategory "Beverage", Op.addSupplier "Main" "c",
              Op.addItem "Milk" 2 1 1 12 8 12] initSystem).create_order_for_item
        1001 none "2026-10-12").1 ≠ Except.error Err.supplierNotFound :=
  (refs_resolve_over_runs
    [Op.addCategory "Beverage", Op.addSupplier "Main" "c",
     Op.addItem "Milk" 2 1 1 12 8 12]).2 1001 none "2026-10-12"

/-- C9: `inventory_table` and `orders_table` are pure reads — the state
they return is exactly the input state — their data rows are the item
(resp. order) rows in ascending itemID (resp. orderID) order, every
price cell is a currency string with exactly two decimal digits, and an
order with an empty line mapping renders the "-" placeholder in its
lines cell. -/
theorem tables_pure_sorted (s : InventorySystem) :
    ((s.inventory_table).2 = s) ∧
    ((s.orders_table).2 = s) ∧
    ((s.inventory_table).1
      = InventorySystem.invHeader ::
          (sortByKey (fun it => it.itemID) (valuesA s.items)).map InventoryItem.to_row) ∧
    ((s.orders_table).1
      = ordHeader ::
          (sortByKey (fun po => po.orderID) (valuesA s.orders)).map PurchaseOrder.to_row) ∧
    (((sortByKey (fun it => it.itemID) (valuesA s.items)).map
        (fun it => it.itemID)).Pairwise (fun x y => x ≤ y)) ∧
    (((sortByKey (fun po => po.orderID) (valuesA s.orders)).map
        (fun po => po.orderID)).Pairwise (fun x y => x ≤ y)) ∧
    (∀ it : InventoryItem, ∃ body cents,
      (InventoryItem.to_row it)[2]? = some ("$" ++ body ++ "." ++ cents) ∧
      cents.length = 2 ∧ cents.toList.all Char.isDigit = true) ∧
    (∀ po : PurchaseOrder, po.items = [] → (PurchaseOrder.to_row po)[4]? = some "-") := by
  refine ⟨rfl, rfl, rfl, rfl, ?_, ?_, ?_, ?_⟩
  · exact List.pairwise_map.mpr (sortByKey_pairwise _ _)
  · exact List.pairwise_map.mpr (sortByKey_pairwise _ _)
  · intro it
    obtain ⟨body, cents, heq, hlen, hdig⟩ := formatCurrency_shape it.price
    exact ⟨body, cents, by rw [show (InventoryItem.to_row it)[2]?
      = some (formatCurrency it.price) from rfl, heq], hlen, hdig⟩
  · intro po h
    show some (renderLines po.items) = some "-"
    rw [h]
    rfl

/-- Witness for C9: on `demoSystem` the inventory table leaves the state
unchanged, and an order with no lines renders the placeholder cell. -/
theorem tables_pure_sorted_witness :
    ((demoSystem.inventory_table).2 = demoSystem) ∧
    ((PurchaseOrder.to_row ⟨5001, "2026-10-12", 1, "OPEN", []⟩)[4]? = some "-") :=
  ⟨(tables_pure_sorted demoSystem).1,
   (tables_pure_sorted demoSystem).2.2.2.2.2.2.2 ⟨5001, "2026-10-12", 1, "OPEN", []⟩ rfl⟩

end CafeInventory
